import Mathlib

/-!
Verification of the natural-language specification of `repo_miner.py` against a
shallow embedding of its three operations: `fetch_commits`, `fetch_issues` and
`merge_and_summarize`.  Timestamps are modelled as integer seconds since an
arbitrary epoch: the code only ever uses timestamp differences (Python
`timedelta`), serialization (`isoformat`) and null checks, all of which are
representable at that granularity.
-/

namespace RepoMiner

/-- Equality of `Except` values is decidable componentwise; this lets concrete
fetch results be checked by `decide`. -/
def exceptDecEq {ε α : Type} [DecidableEq ε] [DecidableEq α] :
    DecidableEq (Except ε α) := fun x y =>
  match x, y with
  | .error e, .error f =>
    if h : e = f then isTrue (congrArg Except.error h)
    else isFalse (fun hc => h (Except.error.inj hc))
  | .ok a, .ok b =>
    if h : a = b then isTrue (congrArg Except.ok h)
    else isFalse (fun hc => h (Except.ok.inj hc))
  | .error _, .ok _ => isFalse (fun hc => Except.noConfusion hc)
  | .ok _, .error _ => isFalse (fun hc => Except.noConfusion hc)

instance {ε α : Type} [DecidableEq ε] [DecidableEq α] : DecidableEq (Except ε α) :=
  exceptDecEq

/-- Timestamps as integer seconds since an arbitrary epoch. -/
abbrev Time := Int

/-- The `commit.commit.author` object of the API: attributes `name`, `email`
and `date`, each of which may be `None`. -/
structure CommitAuthor where
  name : Option String
  email : Option String
  date : Option Time
deriving DecidableEq

/-- The inner `commit.commit` object: `author` is `None` when the commit has no
attributed author. -/
structure InnerCommit where
  author : Option CommitAuthor
  message : String
deriving DecidableEq

/-- A commit object yielded by `repo.get_commits()`.  `sha = none` models the
`sha` attribute being absent, in which case `getattr(c, "sha")` raises. -/
structure Commit where
  sha : Option String
  commit : InnerCommit
deriving DecidableEq

/-- An issue object yielded by `repo.get_issues(state=...)`.  `user` is the
login of `issue.user` when that object is present, `none` otherwise;
`pull_request = some ()` models the pull-request linkage attribute being
present with a non-`None` value. -/
structure Issue where
  id : Int
  number : Int
  title : String
  user : Option String
  state : String
  created_at : Option Time
  closed_at : Option Time
  comments : Int
  pull_request : Option Unit
deriving DecidableEq

/-- Python exceptions the fetch functions can raise.  `repoAccess` is the
error class the spec calls `RepositoryAccessError` (repository cannot be
resolved, or the API denies/fails the request); it is raised by the API client
library, which is outside this repository, so only its payload is modelled.
`attrError` and `indexError` are `AttributeError` and `IndexError`. -/
inductive FetchError where
  | repoAccess (msg : String)
  | attrError (attr : String)
  | indexError
deriving DecidableEq

/-- The repository object returned by `Github.get_repo`: a stream of commits
and, for each state filter, a stream of issues. -/
structure Repo where
  commits : List Commit
  issues : String → List Issue

/-- The API client.  `get_repo` either resolves the repository name or fails
with a `RepositoryAccessError` payload. -/
structure Github where
  get_repo : String → Except String Repo

/-- Python `str.lower()`, modelled character-wise. -/
def pyLower (s : String) : String := ⟨s.data.map Char.toLower⟩

/-- Python `str.strip()`: drop leading and trailing whitespace. -/
def pyStrip (s : String) : String :=
  ⟨((s.data.dropWhile Char.isWhitespace).reverse.dropWhile Char.isWhitespace).reverse⟩

/-- Python string comparison: lexicographic on code points. -/
def charListLE : List Char → List Char → Bool
  | [], _ => true
  | _ :: _, [] => false
  | a :: as, b :: bs =>
    if a.toNat < b.toNat then true
    else if b.toNat < a.toNat then false
    else charListLE as bs

/-- `a <= b` on Python strings. -/
def strLE (a b : String) : Bool := charListLE a.data b.data

/-- `s.splitlines()[0]`: `none` models the `IndexError` raised when
`splitlines` yields the empty list (which happens exactly for the empty
string); otherwise the first line, i.e. the longest newline-free prefix. -/
def firstLine (s : String) : Option String :=
  if s.data.isEmpty then none
  else some ⟨s.data.takeWhile (fun ch => ch != Char.ofNat 10 && ch != Char.ofNat 13)⟩

/-- One row of the commit table, as built in the loop body of
`fetch_commits` (`repo_miner.py` lines 137-145).  The `date` field holds the
timestamp whose `isoformat()` serialization the code stores. -/
structure CommitRow where
  sha : String
  author : Option String
  email : Option String
  date : Time
  message : String
deriving DecidableEq

/-- The loop body of `fetch_commits` (lines 132-145), in Python evaluation
order: `getattr(commit_author, "name")` raises when the author object is
`None`; `getattr(c, "sha")` raises when the attribute is absent;
`author_date.isoformat()` raises when the date is `None`; and
`message.splitlines()[0]` raises on an empty message. -/
def commitRow (c : Commit) : Except FetchError CommitRow :=
  match c.commit.author with
  | none => .error (.attrError "name")
  | some a =>
    match c.sha with
    | none => .error (.attrError "sha")
    | some sha =>
      match a.date with
      | none => .error (.attrError "isoformat")
      | some d =>
        match firstLine c.commit.message with
        | none => .error .indexError
        | some line =>
          .ok { sha := sha, author := a.name, email := a.email,
                date := d, message := pyStrip line }

/-- `max_commits is not None and count >= max_commits` (and likewise for
`max_issues`). -/
def capReached (cap : Option Nat) (count : Nat) : Bool :=
  match cap with
  | none => false
  | some k => decide (count ≥ k)

/-- The `for c in repo.get_commits()` loop of `fetch_commits` (lines 130-148):
the row is built and appended and `count` incremented before the cap check, so
the check compares `count + 1` against the cap. -/
def fetchCommitsLoop (cs : List Commit) (count : Nat) (cap : Option Nat) :
    Except FetchError (List CommitRow) :=
  match cs with
  | [] => .ok []
  | c :: rest =>
    match commitRow c with
    | .error e => .error e
    | .ok row =>
      if capReached cap (count + 1) then .ok [row]
      else
        match fetchCommitsLoop rest (count + 1) cap with
        | .error e => .error e
        | .ok rows => .ok (row :: rows)

/-- `fetch_commits(repo_name, max_commits)` (lines 115-153): resolve the
repository, then run the commit loop starting from `count = 0`. -/
def fetch_commits (gh : Github) (repo_name : String) (max_commits : Option Nat) :
    Except FetchError (List CommitRow) :=
  match gh.get_repo repo_name with
  | .error e => .error (.repoAccess e)
  | .ok repo => fetchCommitsLoop repo.commits 0 max_commits

/-- Python `timedelta.days`: the elapsed seconds floor-divided by 86400
(`timedelta` is normalized so that `days` rounds toward negative infinity). -/
def timedeltaDays (sec : Int) : Int := Int.fdiv sec 86400

/-- One row of the issue table (lines 96-106).  `created_at` and `closed_at`
hold the timestamps whose `isoformat()` serializations the code stores, `none`
when the source value is `None`. -/
structure IssueRow where
  id : Int
  number : Int
  title : String
  user : Option String
  state : String
  created_at : Option Time
  closed_at : Option Time
  comments : Int
  open_duration_days : Option Int
deriving DecidableEq

/-- The record built for one qualifying issue (lines 88-106):
`open_duration_days` is `(closed - created).days` when both timestamps are
present and `None` otherwise. -/
def issueRow (i : Issue) : IssueRow :=
  { id := i.id, number := i.number, title := i.title, user := i.user,
    state := i.state, created_at := i.created_at, closed_at := i.closed_at,
    comments := i.comments,
    open_duration_days :=
      match i.closed_at, i.created_at with
      | some c, some o => some (timedeltaDays (c - o))
      | _, _ => none }

/-- The `for issue in repo.get_issues(state=state)` loop of `fetch_issues`
(lines 80-107): the cap is checked first (against qualifying issues appended
so far), then pull-request-typed items are skipped without counting, then the
row is appended and `count` incremented. -/
def fetchIssuesLoop (is : List Issue) (count : Nat) (cap : Option Nat) :
    List IssueRow :=
  match is with
  | [] => []
  | i :: rest =>
    if capReached cap count then []
    else if i.pull_request.isSome then fetchIssuesLoop rest count cap
    else issueRow i :: fetchIssuesLoop rest (count + 1) cap

/-- `fetch_issues(repo_full_name, state, max_issues)` (lines 68-112). -/
def fetch_issues (gh : Github) (repo_full_name : String) (state : String)
    (max_issues : Option Nat) : Except FetchError (List IssueRow) :=
  match gh.get_repo repo_full_name with
  | .error e => .error (.repoAccess e)
  | .ok repo => .ok (fetchIssuesLoop (repo.issues state) 0 max_issues)

/-! ## Summarizer

`merge_and_summarize` receives two DataFrames read back from CSV.  A date
column cell is modelled as either null, a string that parses to a timestamp,
or an unparseable string; `pd.to_datetime(..., errors="coerce")` sends the
first and last to `NaT` (modelled as `none`).  Each frame also records which
of the columns the function touches are present, since reading a missing
column raises `KeyError`. -/

/-- A raw cell of a date column as read from CSV. -/
inductive Cell where
  | null
  | ts (t : Time)
  | unparseable (s : String)
deriving DecidableEq

/-- `pd.to_datetime(cell, errors="coerce")` on a single cell. -/
def parseCell : Cell → Option Time
  | .null => none
  | .ts t => some t
  | .unparseable _ => none

/-- A row of the commits DataFrame, restricted to the columns
`merge_and_summarize` touches.  A missing (NaN) author is `none`. -/
structure CRow where
  author : Option String
  date : Cell
deriving DecidableEq

/-- The commits DataFrame: which touched columns are present, and the rows. -/
structure CommitsDF where
  hasAuthor : Bool
  hasDate : Bool
  rows : List CRow
deriving DecidableEq

/-- A row of the issues DataFrame, restricted to the columns
`merge_and_summarize` touches. -/
structure IRow where
  state : Option String
  created_at : Cell
  closed_at : Cell
deriving DecidableEq

/-- The issues DataFrame: which touched columns are present, and the rows. -/
structure IssuesDF where
  hasState : Bool
  hasCreated : Bool
  hasClosed : Bool
  rows : List IRow
deriving DecidableEq

/-- An issue row of the local copy after step 1 normalized both date columns
to datetime (`NaT` is `none`). -/
structure NIRow where
  state : Option String
  created_at : Option Time
  closed_at : Option Time
deriving DecidableEq

/-- Step 1 of `merge_and_summarize` on the local issues copy (lines 33-34). -/
def normalizeIssues (rows : List IRow) : List NIRow :=
  rows.map fun r => ⟨r.state, parseCell r.created_at, parseCell r.closed_at⟩

/-- The sort key of `sort_values(["count", "author"], ascending=[False, True])`:
descending count, then ascending author name (Python string order). -/
def committerLE (x y : String × Nat) : Prop :=
  y.2 < x.2 ∨ (x.2 = y.2 ∧ strLE x.1 y.1 = true)

instance : DecidableRel committerLE := fun x y => by
  unfold committerLE
  exact inferInstance

/-- Step 2 of `merge_and_summarize` (lines 37-45): drop rows with a null
author, group by author, count rows per author, sort by descending count with
ascending author as tie-break, take the first 5.  The concrete sorting
algorithm of `sort_values` is modelled by insertion sort; since group keys are
distinct the sorted output is unique, so the choice is irrelevant. -/
def topCommitters (rows : List CRow) : List (String × Nat) :=
  let authored := rows.filterMap (fun r => r.author)
  let counts := authored.dedup.map (fun a => (a, authored.count a))
  (List.insertionSort committerLE counts).take 5

/-- One term of the boolean series `issues["state"].str.lower() == "closed"`:
a NaN state stays NaN under `.str.lower()` and compares unequal. -/
def stateIsClosed : Option String → Bool
  | some s => decide (pyLower s = "closed")
  | none => false

/-- The duration term one normalized issue row contributes to step 4 of
`merge_and_summarize`: its elapsed seconds over 86400 as an exact rational
when both timestamps are present, nothing otherwise. -/
def durOf (r : NIRow) : Option ℚ :=
  match r.closed_at, r.created_at with
  | some c, some o => some (((c - o : Int) : ℚ) / 86400)
  | _, _ => none

/-- The `durations` series of line 58. -/
def openDurations (rows : List NIRow) : List ℚ := rows.filterMap durOf

/-- Step 4 of `merge_and_summarize` (lines 57-63): the mean of the duration
series, or `none` (printed "N/A") when the series is empty. -/
def avgOpenDuration (rows : List NIRow) : Option ℚ :=
  if (openDurations rows).isEmpty then none
  else some ((openDurations rows).sum / ((openDurations rows).length : ℚ))

/-- The KeyError raised when a DataFrame column is read but absent. -/
structure KeyErr where
  key : String
deriving DecidableEq

/-- The three printed statistics. -/
structure Summary where
  top : List (String × Nat)
  close_rate : ℚ
  avg_open_days : Option ℚ
deriving DecidableEq

/-- `merge_and_summarize(commits_df, issues_df)` (lines 20-63).  The function
copies both frames, then: step 1 converts the `date`, `created_at` and
`closed_at` columns of the copies (reading a missing column raises
`KeyError`); step 2 computes and prints the top committers (`dropna` on a
missing `author` column raises); step 3 the close rate, where a missing
`state` column is tolerated (`if "state" in issues else 0`) and an empty
issue table reports `0.0`; step 4 the average open duration.  The returned
`Summary` collects what is printed; a raised `KeyError` aborts the whole
report. -/
def merge_and_summarize (commits_df : CommitsDF) (issues_df : IssuesDF) :
    Except KeyErr Summary :=
  if !commits_df.hasDate then .error ⟨"date"⟩
  else if !issues_df.hasCreated then .error ⟨"created_at"⟩
  else if !issues_df.hasClosed then .error ⟨"closed_at"⟩
  else if !commits_df.hasAuthor then .error ⟨"author"⟩
  else
    let issues := normalizeIssues issues_df.rows
    let top := topCommitters commits_df.rows
    let total := issues.length
    let closed :=
      if issues_df.hasState then (issues.filter fun r => stateIsClosed r.state).length
      else 0
    let close_rate : ℚ := if total = 0 then 0 else (closed : ℚ) / (total : ℚ)
    .ok { top := top, close_rate := close_rate,
          avg_open_days := avgOpenDuration issues }

/-- Caller-visible effect of one call to `merge_and_summarize`: the two
argument frames as the caller sees them after the call, the local copies
after their in-place column conversions, and the computed report.  Lines
28-29 copy both frames (`commits_df.copy()`, `issues_df.copy()`), so the
in-place assignments of lines 32-34 land on the copies only. -/
structure SummarizeRun where
  commits_df : CommitsDF
  issues_df : IssuesDF
  localCommitDates : List (Option Time)
  localIssues : List NIRow
  result : Except KeyErr Summary
deriving DecidableEq

/-- State-passing form of `merge_and_summarize`. -/
def merge_and_summarize_run (commits_df : CommitsDF) (issues_df : IssuesDF) :
    SummarizeRun :=
  { commits_df := commits_df
    issues_df := issues_df
    localCommitDates := commits_df.rows.map fun r => parseCell r.date
    localIssues := normalizeIssues issues_df.rows
    result := merge_and_summarize commits_df issues_df }

/-- Cap a list when a cap is given. -/
def applyCap {α : Type} (cap : Option Nat) (l : List α) : List α :=
  match cap with
  | none => l
  | some k => l.take k

/-- Spec-side description of the duration sample: the elapsed time in exact
fractional days of each raw issue row whose two timestamps both parse. -/
def rawDurations (rows : List IRow) : List ℚ :=
  rows.filterMap fun r =>
    durOf ⟨r.state, parseCell r.created_at, parseCell r.closed_at⟩

/-! ## Concrete sample data for counterexamples and witnesses -/

/-- A well-formed sample commit. -/
def sampleCommit (sha : String) : Commit :=
  { sha := some sha
    commit := { author := some { name := some "Alice", email := some "a@x.org",
                                 date := some 0 }
                message := "Initial commit" } }

/-- A commit carrying no attributed author object. -/
def noAuthorCommit : Commit :=
  { sha := some "deadbeef", commit := { author := none, message := "fix" } }

/-- The spec duration example: created 2025-09-20T12:00:00 and closed
2025-09-22T09:00:00, i.e. 162000 elapsed seconds (1.875 days). -/
def exampleIssue : Issue :=
  { id := 10, number := 210, title := "Closed", user := some "michael",
    state := "closed", created_at := some 0, closed_at := some 162000,
    comments := 3, pull_request := none }

/-- An issue whose closing timestamp precedes its creation timestamp by one
hour. -/
def invertedIssue : Issue :=
  { id := 1, number := 1, title := "odd", user := some "u", state := "closed",
    created_at := some 3600, closed_at := some 0, comments := 0,
    pull_request := none }

/-- A pull-request-typed item. -/
def prIssue (n : Int) : Issue :=
  { id := n, number := n, title := "a pr", user := some "bob", state := "open",
    created_at := some 0, closed_at := none, comments := 0,
    pull_request := some () }

/-- A qualifying (non-pull-request) issue. -/
def plainIssue (n : Int) : Issue :=
  { id := n, number := n, title := "an issue", user := some "alice",
    state := "open", created_at := some 0, closed_at := none, comments := 0,
    pull_request := none }

/-- Commit-table rows by Alice x3, Bob x3, Carol x1, plus two rows whose
author is null. -/
def exampleCommitRows : List CRow :=
  [⟨some "Alice", .ts 0⟩, ⟨some "Bob", .ts 0⟩, ⟨some "Alice", .ts 0⟩,
   ⟨some "Carol", .ts 0⟩, ⟨none, .ts 0⟩, ⟨some "Bob", .ts 0⟩,
   ⟨some "Alice", .ts 0⟩, ⟨none, .null⟩, ⟨some "Bob", .ts 0⟩]

/-- A well-formed commits frame. -/
def sampleCommitsDF : CommitsDF :=
  { hasAuthor := true, hasDate := true, rows := exampleCommitRows }

/-- A commits frame whose `author` column is missing. -/
def noAuthorColCommitsDF : CommitsDF :=
  { hasAuthor := false, hasDate := true, rows := [] }

/-- The spec §8 scenario issue table: one open issue and one issue closed two
days (172800 seconds) after creation. -/
def scenarioIssuesDF : IssuesDF :=
  { hasState := true, hasCreated := true, hasClosed := true,
    rows := [⟨some "open", .ts 0, .null⟩, ⟨some "closed", .ts 0, .ts 172800⟩] }

/-- The empty issue table with all columns present. -/
def emptyIssuesDF : IssuesDF :=
  { hasState := true, hasCreated := true, hasClosed := true, rows := [] }

/-- An issues frame holding an unparseable `created_at` string. -/
def dirtyIssuesDF : IssuesDF :=
  { hasState := true, hasCreated := true, hasClosed := true,
    rows := [⟨some "open", .unparseable "garbage", .null⟩] }

/-- A `Github` client that cannot resolve any repository. -/
def failingGithub : Github := ⟨fun _ => .error "404: repository not found"⟩

/-! ## Theorems -/

/-- C2: when the repository cannot be resolved or API access fails, both
`fetch_commits` and `fetch_issues` raise the `RepositoryAccessError`, which
propagates to the caller unmodified (same payload); no table, empty or
partial, is returned. -/
theorem fetch_error_propagates (gh : Github) (name state : String)
    (capC capI : Option Nat) (e : String) (h : gh.get_repo name = .error e) :
    fetch_commits gh name capC = .error (.repoAccess e) ∧
    fetch_issues gh name state capI = .error (.repoAccess e) := by
  unfold fetch_commits fetch_issues
  rw [h]
  exact ⟨rfl, rfl⟩

/-- C2 witness: a concrete failing client. -/
theorem fetch_error_propagates_witness :
    fetch_commits failingGithub "octo/miss" (some 5) =
        .error (.repoAccess "404: repository not found") ∧
    fetch_issues failingGithub "octo/miss" "all" none =
        .error (.repoAccess "404: repository not found") :=
  fetch_error_propagates failingGithub "octo/miss" "all" (some 5) none
    "404: repository not found" rfl

theorem fetchIssuesLoop_none (is : List Issue) (count : Nat) :
    fetchIssuesLoop is count none =
      (is.filter fun i => i.pull_request.isNone).map issueRow := by
  induction is generalizing count with
  | nil => rfl
  | cons i rest ih =>
    cases hp : i.pull_request with
    | some u => simp [fetchIssuesLoop, capReached, hp, ih]
    | none => simp [fetchIssuesLoop, capReached, hp, ih]

theorem fetchIssuesLoop_some (is : List Issue) (k count : Nat) :
    fetchIssuesLoop is count (some k) =
      ((is.filter fun i => i.pull_request.isNone).take (k - count)).map
        issueRow := by
  induction is generalizing count with
  | nil => simp [fetchIssuesLoop]
  | cons i rest ih =>
    by_cases hc : count ≥ k
    · have hz : k - count = 0 := Nat.sub_eq_zero_of_le hc
      simp [fetchIssuesLoop, capReached, hc, hz]
    · have hlt : count < k := Nat.lt_of_not_le hc
      cases hp : i.pull_request with
      | some u =>
        simp [fetchIssuesLoop, capReached, hc, hp, ih]
      | none =>
        have h1 : k - count = (k - (count + 1)) + 1 := by omega
        simp only [fetchIssuesLoop, capReached, hp]
        rw [if_neg (by simpa using hc)]
        simp only [Option.isSome_none, Bool.false_eq_true, if_false]
        rw [List.filter_cons_of_pos (by simp [hp]), h1, List.take_succ_cons]
        simp [ih]

/-- C4: pull-request-typed items (pull-request linkage attribute present and
non-null) are never emitted and never counted against the cap: the fetch loop
yields exactly the pull-request-filtered stream capped at `k` qualifying
issues. -/
theorem fetch_issues_excludes_prs (is : List Issue) (cap : Option Nat) :
    fetchIssuesLoop is 0 cap =
      (applyCap cap (is.filter fun i => i.pull_request.isNone)).map issueRow := by
  cases cap with
  | none => exact fetchIssuesLoop_none is 0
  | some k => simpa [applyCap] using fetchIssuesLoop_some is k 0

theorem isOk_exists {ε α : Type} (x : Except ε α) (h : x.isOk = true) :
    ∃ a, x = .ok a := by
  cases x with
  | error e => simp [Except.isOk, Except.toBool] at h
  | ok a => exact ⟨a, rfl⟩

theorem fetchCommitsLoop_take (cs : List Commit) (k count : Nat)
    (h : count < k) :
    fetchCommitsLoop cs count (some k) =
      fetchCommitsLoop (cs.take (k - count)) count (some k) := by
  induction cs generalizing count with
  | nil => simp
  | cons c rest ih =>
    have h1 : k - count = (k - (count + 1)) + 1 := by omega
    rw [h1, List.take_succ_cons]
    cases hcr : commitRow c with
    | error e => simp [fetchCommitsLoop, hcr]
    | ok row =>
      by_cases hk : count + 1 ≥ k
      · simp [fetchCommitsLoop, hcr, capReached, hk]
      · have hc : capReached (some k) (count + 1) = false := by
          simp [capReached, hk]
        simp only [fetchCommitsLoop, hcr, hc, Bool.false_eq_true, if_false]
        rw [ih (count + 1) (Nat.lt_of_not_le hk)]

theorem fetchCommitsLoop_ok (cs : List Commit) (k count : Nat) (h : count < k)
    (hw : ∀ c ∈ cs, (commitRow c).isOk = true) :
    fetchCommitsLoop cs count (some k) =
      .ok ((cs.take (k - count)).filterMap fun c => (commitRow c).toOption) := by
  induction cs generalizing count with
  | nil => simp [fetchCommitsLoop]
  | cons c rest ih =>
    obtain ⟨row, hrow⟩ := isOk_exists _ (hw c (by simp))
    have h1 : k - count = (k - (count + 1)) + 1 := by omega
    rw [h1, List.take_succ_cons]
    by_cases hk : count + 1 ≥ k
    · have hz : k - (count + 1) = 0 := by omega
      simp [fetchCommitsLoop, hrow, capReached, hk, hz, Except.toOption]
    · have hc : capReached (some k) (count + 1) = false := by
        simp [capReached, hk]
      simp only [fetchCommitsLoop, hrow, hc, Bool.false_eq_true, if_false]
      rw [ih (count + 1) (Nat.lt_of_not_le hk) (fun x hx => hw x (by simp [hx]))]
      simp [List.filterMap_cons, hrow, Except.toOption]

theorem filterMap_commitRow_length (l : List Commit)
    (hw : ∀ c ∈ l, (commitRow c).isOk = true) :
    (l.filterMap fun c => (commitRow c).toOption).length = l.length := by
  induction l with
  | nil => rfl
  | cons c rest ih =>
    obtain ⟨row, hrow⟩ := isOk_exists _ (hw c (by simp))
    have ih2 := ih fun x hx => hw x (by simp [hx])
    rw [List.filterMap_cons, hrow]
    show (row :: List.filterMap (fun c => (commitRow c).toOption) rest).length
        = rest.length + 1
    rw [List.length_cons, ih2]

/-- C1 (amended): for caps `k ≥ 1` and any commit history of well-formed
commits, `fetch_commits` returns exactly `min(k, n)` rows, namely the rows of
the first `min(k, n)` commits in API iteration order, and it never inspects
the stream beyond its first `k` elements (the cap is a hard ceiling, not a
post-filter).  For `k = 0` the cap check, which runs only after a row has
been appended, lets one row through; see the counterexample. -/
theorem fetch_commits_cap (cs : List Commit) (k : Nat) (hk : 1 ≤ k)
    (hw : ∀ c ∈ cs, (commitRow c).isOk = true) :
    (fetchCommitsLoop cs 0 (some k) =
        .ok ((cs.take k).filterMap fun c => (commitRow c).toOption))
    ∧ ((cs.take k).filterMap fun c => (commitRow c).toOption).length =
        min k cs.length
    ∧ fetchCommitsLoop cs 0 (some k) =
        fetchCommitsLoop (cs.take k) 0 (some k) := by
  refine ⟨?_, ?_, ?_⟩
  · exact fetchCommitsLoop_ok cs k 0 hk hw
  · rw [filterMap_commitRow_length _ fun c hc => hw c (List.take_subset _ _ hc)]
    exact List.length_take k cs
  · exact fetchCommitsLoop_take cs k 0 hk

/-- C1 witness: three well-formed commits with cap 2. -/
theorem fetch_commits_cap_witness :
    (fetchCommitsLoop [sampleCommit "a1", sampleCommit "b2", sampleCommit "c3"]
          0 (some 2) =
        .ok (([sampleCommit "a1", sampleCommit "b2", sampleCommit "c3"].take 2).filterMap
          fun c => (commitRow c).toOption))
    ∧ (([sampleCommit "a1", sampleCommit "b2", sampleCommit "c3"].take 2).filterMap
          fun c => (commitRow c).toOption).length =
        min 2 [sampleCommit "a1", sampleCommit "b2", sampleCommit "c3"].length
    ∧ fetchCommitsLoop [sampleCommit "a1", sampleCommit "b2", sampleCommit "c3"]
          0 (some 2) =
        fetchCommitsLoop
          ([sampleCommit "a1", sampleCommit "b2", sampleCommit "c3"].take 2)
          0 (some 2) :=
  fetch_commits_cap _ 2 (by decide) (by decide)

/-- C1 counterexample: with cap `k = 0` and a one-commit history the fetch
returns one row, not `min(0, 1) = 0` rows: the cap check runs only after a
row has already been appended. -/
theorem fetch_commits_cap_zero_counterexample :
    (fetchCommitsLoop [sampleCommit "sha1"] 0 (some 0)).map List.length =
        .ok 1
    ∧ min 0 1 = 0 := by
  exact ⟨rfl, rfl⟩

/-- C3 (amended): when the author object is present, null `name` and `email`
attributes pass through as nulls in the emitted row rather than raising; but
the fetch raises not only for an absent `sha`: a missing author object and a
null author date (and an empty message) raise as well. -/
theorem commit_row_null_fields (sha : String) (nm em : Option String)
    (d : Time) (msg line : String) (hmsg : firstLine msg = some line) :
    commitRow ⟨some sha, ⟨some ⟨nm, em, some d⟩, msg⟩⟩ =
        .ok ⟨sha, nm, em, d, pyStrip line⟩
    ∧ commitRow ⟨some sha, ⟨none, msg⟩⟩ = .error (.attrError "name")
    ∧ commitRow ⟨some sha, ⟨some ⟨nm, em, none⟩, msg⟩⟩ =
        .error (.attrError "isoformat")
    ∧ commitRow ⟨none, ⟨some ⟨nm, em, some d⟩, msg⟩⟩ =
        .error (.attrError "sha") := by
  refine ⟨?_, rfl, rfl, rfl⟩
  simp [commitRow, hmsg]

/-- C3 witness: a commit whose author object has null name and email. -/
theorem commit_row_null_fields_witness :
    commitRow ⟨some "sha9", ⟨some ⟨none, none, some 5⟩, "hello"⟩⟩ =
      .ok ⟨"sha9", none, none, 5, pyStrip "hello"⟩ :=
  (commit_row_null_fields "sha9" none none 5 "hello" "hello" rfl).1

/-- C3 counterexample: a commit with no attributed author object makes the
whole fetch raise `AttributeError` instead of emitting a row with null
author, email and date. -/
theorem fetch_commits_no_author_counterexample :
    fetchCommitsLoop [noAuthorCommit] 0 none = .error (.attrError "name") :=
  rfl

/-- C5 (amended): `open_duration_days` is null unless both `created_at` and
`closed_at` are non-null; when both are present it is the elapsed whole days
rounded toward negative infinity (Python `timedelta.days`), which coincides
with truncation toward zero whenever `closed_at ≥ created_at`; the spec
example (elapsed 1.875 days) yields 1. -/
theorem open_duration_days_spec (i : Issue) :
    ((i.created_at = none ∨ i.closed_at = none) →
      (issueRow i).open_duration_days = none)
    ∧ (∀ o c : Int, i.created_at = some o → i.closed_at = some c →
        (issueRow i).open_duration_days = some (Int.fdiv (c - o) 86400)
        ∧ (o ≤ c → Int.fdiv (c - o) 86400 = Int.tdiv (c - o) 86400))
    ∧ (issueRow exampleIssue).open_duration_days = some 1 := by
  refine ⟨?_, ?_, by decide⟩
  · rintro (h | h) <;> simp [issueRow, h]
  · intro o c ho hc
    constructor
    · simp [issueRow, ho, hc, timedeltaDays]
    · intro hle
      have hnn : (0 : Int) ≤ c - o := by omega
      have h1 : Int.fdiv (c - o) 86400 = (c - o) / 86400 :=
        Int.fdiv_eq_ediv _ (by norm_num)
      have h2 : Int.tdiv (c - o) 86400 = (c - o) / 86400 :=
        Int.tdiv_eq_ediv hnn (by norm_num)
      rw [h1, h2]

/-- C5 witness: the spec example issue. -/
theorem open_duration_days_spec_witness :
    (issueRow exampleIssue).open_duration_days =
      some (Int.fdiv (162000 - 0) 86400) :=
  ((open_duration_days_spec exampleIssue).2.1 0 162000 rfl rfl).1

/-- C5 counterexample: for an issue closed one hour before creation the code
emits floor(-3600 / 86400) = -1 days, while truncation toward zero gives 0. -/
theorem open_duration_truncation_counterexample :
    (issueRow invertedIssue).open_duration_days = some (-1)
    ∧ Int.tdiv ((0 : Int) - 3600) 86400 = 0
    ∧ (-1 : Int) ≠ 0 := by
  decide

theorem summarize_ok (cdf : CommitsDF) (idf : IssuesDF)
    (hd : cdf.hasDate = true) (hc : idf.hasCreated = true)
    (hl : idf.hasClosed = true) (ha : cdf.hasAuthor = true) :
    merge_and_summarize cdf idf = .ok
      { top := topCommitters cdf.rows
        close_rate :=
          if (normalizeIssues idf.rows).length = 0 then 0
          else (((if idf.hasState then
              ((normalizeIssues idf.rows).filter fun r =>
                stateIsClosed r.state).length
            else 0 : Nat)) : ℚ) / ((normalizeIssues idf.rows).length : ℚ)
        avg_open_days := avgOpenDuration (normalizeIssues idf.rows) } := by
  simp only [merge_and_summarize, hd, hc, hl, ha, Bool.not_true,
    Bool.false_eq_true, if_false]

/-- C6 (amended): the three statistics are computed sequentially with no
per-statistic error isolation.  When the columns read by the date
normalization and by the top-committer statistic are present the summary
always succeeds — in particular a missing `state` column, the close-rate
input, is tolerated and does not block the other two statistics — but a
missing `author` column, needed only by the top-committer statistic, aborts
the whole summary, suppressing the close rate and the average duration. -/
theorem summarize_column_dependencies (cdf : CommitsDF) (idf : IssuesDF)
    (hd : cdf.hasDate = true) (hc : idf.hasCreated = true)
    (hl : idf.hasClosed = true) :
    (cdf.hasAuthor = true → ∃ s, merge_and_summarize cdf idf = .ok s)
    ∧ (cdf.hasAuthor = false →
        merge_and_summarize cdf idf = .error ⟨"author"⟩) := by
  constructor
  · intro ha
    exact ⟨_, summarize_ok cdf idf hd hc hl ha⟩
  · intro ha
    simp [merge_and_summarize, hd, hc, hl, ha]

/-- C6 witness: a frame with no `state` column still yields a full summary;
a frame with no `author` column yields the KeyError. -/
theorem summarize_column_dependencies_witness :
    (∃ s, merge_and_summarize sampleCommitsDF
        ⟨false, true, true, [⟨some "closed", .ts 0, .ts 86400⟩]⟩ = .ok s)
    ∧ merge_and_summarize noAuthorColCommitsDF
        ⟨false, true, true, [⟨some "closed", .ts 0, .ts 86400⟩]⟩ =
      .error ⟨"author"⟩ :=
  ⟨(summarize_column_dependencies sampleCommitsDF
      ⟨false, true, true, [⟨some "closed", .ts 0, .ts 86400⟩]⟩
      rfl rfl rfl).1 rfl,
   (summarize_column_dependencies noAuthorColCommitsDF
      ⟨false, true, true, [⟨some "closed", .ts 0, .ts 86400⟩]⟩
      rfl rfl rfl).2 rfl⟩

/-- C6 counterexample: with the `author` column missing — data needed only by
the top-committer statistic — the whole summary aborts with the KeyError, so
the close rate and average open duration of a perfectly well-formed issue
table are never computed: the three statistics are not independent. -/
theorem summarize_not_independent_counterexample :
    merge_and_summarize noAuthorColCommitsDF scenarioIssuesDF =
      .error ⟨"author"⟩ :=
  rfl

/-- C10: `merge_and_summarize` operates on copies: the caller frames are
unchanged by the call, field for field, including the date columns that get
converted to datetime only on the local copies.  Concretely: on a frame
holding an unparseable date string the local copy differs (the cell became
NaT) while the caller frame still holds the original cell. -/
theorem summarize_preserves_inputs (cdf : CommitsDF) (idf : IssuesDF) :
    ((merge_and_summarize_run cdf idf).commits_df = cdf
      ∧ (merge_and_summarize_run cdf idf).issues_df = idf)
    ∧ (merge_and_summarize_run sampleCommitsDF dirtyIssuesDF).issues_df.rows =
        [⟨some "open", .unparseable "garbage", .null⟩]
    ∧ (merge_and_summarize_run sampleCommitsDF dirtyIssuesDF).localIssues =
        [⟨some "open", none, none⟩] :=
  ⟨⟨rfl, rfl⟩, rfl, rfl⟩

theorem closed_filter_normalize (rows : List IRow) :
    ((normalizeIssues rows).filter fun r => stateIsClosed r.state).length =
      rows.countP fun r => stateIsClosed r.state := by
  induction rows with
  | nil => rfl
  | cons r rest ih =>
    by_cases h : stateIsClosed r.state = true
    · simp [normalizeIssues, List.filter_cons, List.countP_cons, h] at *
      omega
    · simp [normalizeIssues, List.filter_cons, List.countP_cons, h] at *
      exact ih

/-- C7: the close rate equals the number of rows whose state lowercases to
"closed" (case-insensitive comparison, a null state never matching) divided
by the total row count of the issue table, and the empty issue table reports
exactly 0 rather than failing on a division by zero. -/
theorem close_rate_spec (cdf : CommitsDF) (idf : IssuesDF)
    (hd : cdf.hasDate = true) (ha : cdf.hasAuthor = true)
    (hc : idf.hasCreated = true) (hl : idf.hasClosed = true)
    (hst : idf.hasState = true) :
    ∃ s, merge_and_summarize cdf idf = .ok s
      ∧ (idf.rows ≠ [] →
          s.close_rate =
            ((idf.rows.countP fun r => stateIsClosed r.state : Nat) : ℚ) /
              (idf.rows.length : ℚ))
      ∧ (idf.rows = [] → s.close_rate = 0) := by
  refine ⟨_, summarize_ok cdf idf hd hc hl ha, ?_, ?_⟩
  · intro hne
    have hlen : (normalizeIssues idf.rows).length = idf.rows.length :=
      List.length_map _ _
    have hne2 : ¬ (normalizeIssues idf.rows).length = 0 := by
      rw [hlen]
      simpa [List.length_eq_zero] using hne
    dsimp only
    rw [if_neg hne2, hst, if_pos rfl, closed_filter_normalize, hlen]
  · intro he
    dsimp only
    simp [he, normalizeIssues]

/-- C7 witness: instantiation at the two-row scenario table. -/
theorem close_rate_spec_witness :
    ∃ s, merge_and_summarize sampleCommitsDF scenarioIssuesDF = .ok s
      ∧ (scenarioIssuesDF.rows ≠ [] →
          s.close_rate =
            ((scenarioIssuesDF.rows.countP fun r =>
              stateIsClosed r.state : Nat) : ℚ) /
              (scenarioIssuesDF.rows.length : ℚ))
      ∧ (scenarioIssuesDF.rows = [] → s.close_rate = 0) :=
  close_rate_spec sampleCommitsDF scenarioIssuesDF rfl rfl rfl rfl rfl

theorem durOf_eq_none (r : NIRow) :
    durOf r = none ↔ r.created_at = none ∨ r.closed_at = none := by
  rcases r with ⟨s, ho, hc⟩
  cases ho <;> cases hc <;> simp [durOf]

theorem durations_normalize (rows : List IRow) :
    openDurations (normalizeIssues rows) = rawDurations rows := by
  unfold openDurations normalizeIssues rawDurations
  rw [List.filterMap_map]
  rfl

theorem avgOpenDuration_eq (rows : List IRow) :
    avgOpenDuration (normalizeIssues rows) =
      if (rawDurations rows).isEmpty then none
      else some ((rawDurations rows).sum / ((rawDurations rows).length : ℚ)) := by
  unfold avgOpenDuration
  rw [durations_normalize]

theorem rawDurations_eq_nil (rows : List IRow) :
    rawDurations rows = [] ↔
      ∀ r ∈ rows,
        parseCell r.created_at = none ∨ parseCell r.closed_at = none := by
  unfold rawDurations
  rw [List.filterMap_eq_nil_iff]
  constructor
  · intro h r hr
    have h2 := h r hr
    rw [durOf_eq_none] at h2
    exact h2
  · intro h r hr
    rw [durOf_eq_none]
    exact h r hr

/-- C9: the average open duration is the mean, over exactly the rows whose
two timestamps both parse successfully, of the elapsed time in exact
fractional days (elapsed seconds over 86400, not truncated); when no such
row exists the summary reports the explicit N/A marker, never the number
zero.  On the spec scenario table (one open issue plus one issue closed
exactly two days after creation) the close rate is 1/2 and the average open
duration exactly 2 days. -/
theorem avg_open_duration_spec (cdf : CommitsDF) (idf : IssuesDF)
    (hd : cdf.hasDate = true) (ha : cdf.hasAuthor = true)
    (hc : idf.hasCreated = true) (hl : idf.hasClosed = true) :
    (∃ s, merge_and_summarize cdf idf = .ok s
        ∧ s.avg_open_days = avgOpenDuration (normalizeIssues idf.rows))
    ∧ (avgOpenDuration (normalizeIssues idf.rows) = none ↔
        ∀ r ∈ idf.rows,
          parseCell r.created_at = none ∨ parseCell r.closed_at = none)
    ∧ (rawDurations idf.rows ≠ [] →
        avgOpenDuration (normalizeIssues idf.rows) =
          some ((rawDurations idf.rows).sum /
            ((rawDurations idf.rows).length : ℚ)))
    ∧ (∃ s, merge_and_summarize sampleCommitsDF scenarioIssuesDF = .ok s
        ∧ s.close_rate = 1 / 2 ∧ s.avg_open_days = some 2) := by
  refine ⟨⟨_, summarize_ok cdf idf hd hc hl ha, rfl⟩, ?_, ?_, ?_⟩
  · rw [avgOpenDuration_eq, ← rawDurations_eq_nil]
    by_cases he : (rawDurations idf.rows).isEmpty
    · simp [he, List.isEmpty_iff.mp he]
    · simp [he]
      intro h
      exact he (by simp [List.isEmpty_iff, h])
  · intro hne
    rw [avgOpenDuration_eq, if_neg (by simpa [List.isEmpty_iff] using hne)]
  · refine ⟨_, summarize_ok sampleCommitsDF scenarioIssuesDF rfl rfl rfl rfl,
      ?_, ?_⟩
    · have e1 : (normalizeIssues scenarioIssuesDF.rows).length = 2 := by decide
      have e2 : ((normalizeIssues scenarioIssuesDF.rows).filter fun r =>
          stateIsClosed r.state).length = 1 := by decide
      have e3 : scenarioIssuesDF.hasState = true := rfl
      dsimp only
      rw [e1, e3, if_pos rfl, e2, if_neg (by norm_num)]
      norm_num
    · have e5 : rawDurations scenarioIssuesDF.rows = [2] := by
        norm_num [rawDurations, scenarioIssuesDF, parseCell, durOf,
          List.filterMap_cons, List.filterMap_nil]
      dsimp only
      rw [avgOpenDuration_eq, e5]
      norm_num

/-- C9 witness: the scenario instantiation extracted from the theorem. -/
theorem avg_open_duration_spec_witness :
    ∃ s, merge_and_summarize sampleCommitsDF scenarioIssuesDF = .ok s
      ∧ s.close_rate = 1 / 2 ∧ s.avg_open_days = some 2 :=
  (avg_open_duration_spec sampleCommitsDF scenarioIssuesDF rfl rfl rfl rfl).2.2.2

theorem charListLE_cons (a b : Char) (as bs : List Char) :
    charListLE (a :: as) (b :: bs) = true ↔
      (a.toNat < b.toNat ∨ (a.toNat = b.toNat ∧ charListLE as bs = true)) := by
  by_cases h1 : a.toNat < b.toNat
  · simp [charListLE, h1]
  · by_cases h2 : b.toNat < a.toNat
    · simp [charListLE, h1, h2]
      omega
    · have h3 : ¬ a.toNat = b.toNat → False := by omega
      simp [charListLE, h1, h2]
      omega

theorem charListLE_total :
    ∀ a b : List Char, charListLE a b = true ∨ charListLE b a = true
  | [], _ => Or.inl rfl
  | _ :: _, [] => Or.inr rfl
  | a :: as, b :: bs => by
    rw [charListLE_cons, charListLE_cons]
    rcases Nat.lt_trichotomy a.toNat b.toNat with h | h | h
    · exact Or.inl (Or.inl h)
    · rcases charListLE_total as bs with hr | hr
      · exact Or.inl (Or.inr ⟨h, hr⟩)
      · exact Or.inr (Or.inr ⟨h.symm, hr⟩)
    · exact Or.inr (Or.inl h)

theorem charListLE_trans :
    ∀ a b c : List Char, charListLE a b = true → charListLE b c = true →
      charListLE a c = true
  | [], _, _, _, _ => rfl
  | _ :: _, [], _, hab, _ => by simp [charListLE] at hab
  | _ :: _, _ :: _, [], _, hbc => by simp [charListLE] at hbc
  | a :: as, b :: bs, c :: cs, hab, hbc => by
    rw [charListLE_cons] at hab hbc ⊢
    rcases hab with h | ⟨he, hr⟩ <;> rcases hbc with h2 | ⟨he2, hr2⟩
    · exact Or.inl (by omega)
    · exact Or.inl (by omega)
    · exact Or.inl (by omega)
    · exact Or.inr ⟨by omega, charListLE_trans as bs cs hr hr2⟩

theorem committerLE_total (x y : String × Nat) :
    committerLE x y ∨ committerLE y x := by
  unfold committerLE
  rcases Nat.lt_trichotomy x.2 y.2 with h | h | h
  · exact Or.inr (Or.inl h)
  · rcases charListLE_total x.1.data y.1.data with hs | hs
    · exact Or.inl (Or.inr ⟨h, hs⟩)
    · exact Or.inr (Or.inr ⟨h.symm, hs⟩)
  · exact Or.inl (Or.inl h)

theorem committerLE_trans (x y z : String × Nat)
    (hxy : committerLE x y) (hyz : committerLE y z) : committerLE x z := by
  unfold committerLE at *
  rcases hxy with h1 | ⟨e1, s1⟩
  · rcases hyz with h2 | ⟨e2, s2⟩
    · exact Or.inl (h2.trans h1)
    · exact Or.inl (e2 ▸ h1)
  · rcases hyz with h2 | ⟨e2, s2⟩
    · exact Or.inl (e1 ▸ h2)
    · exact Or.inr ⟨e1.trans e2, charListLE_trans _ _ _ s1 s2⟩

/-- C8: the top-committer list is built by discarding null-author rows before
grouping (a missing author never forms a group), counting rows per remaining
author, ordering by descending count with ascending author name as tie-break,
and emitting at most the first 5 entries — exactly `min 5 d` entries for `d`
distinct authors; on the Alice x3 / Bob x3 / Carol x1 example (with two
null-author rows present) the list is exactly Alice, Bob, Carol. -/
theorem top_committers_spec (rows : List CRow) :
    (topCommitters rows).length =
        min 5 (rows.filterMap CRow.author).dedup.length
    ∧ (∀ p ∈ topCommitters rows,
        some p.1 ∈ rows.map CRow.author
        ∧ p.2 = (rows.filterMap CRow.author).count p.1)
    ∧ (topCommitters rows).Pairwise committerLE
    ∧ topCommitters exampleCommitRows =
        [("Alice", 3), ("Bob", 3), ("Carol", 1)] := by
  haveI instTot : IsTotal (String × Nat) committerLE := ⟨committerLE_total⟩
  haveI instTrans : IsTrans (String × Nat) committerLE := ⟨committerLE_trans⟩
  refine ⟨?_, ?_, ?_, by decide⟩
  · unfold topCommitters
    rw [List.length_take,
      (List.perm_insertionSort committerLE _).length_eq, List.length_map]
  · intro p hp
    have hp2 : p ∈ List.insertionSort committerLE
        ((rows.filterMap CRow.author).dedup.map fun a =>
          (a, (rows.filterMap CRow.author).count a)) :=
      List.take_subset _ _ hp
    have hp3 : p ∈ (rows.filterMap CRow.author).dedup.map fun a =>
        (a, (rows.filterMap CRow.author).count a) :=
      (List.perm_insertionSort committerLE _).subset hp2
    obtain ⟨a, ha, hpa⟩ := List.mem_map.mp hp3
    have ha2 : a ∈ rows.filterMap CRow.author := List.mem_dedup.mp ha
    obtain ⟨r, hr, hra⟩ := List.mem_filterMap.mp ha2
    constructor
    · rw [← hpa]
      exact List.mem_map.mpr ⟨r, hr, hra⟩
    · rw [← hpa]
  · unfold topCommitters
    exact (List.sorted_insertionSort committerLE _).sublist
      (List.take_sublist _ _)

/-- C8 witness: the example instantiation together with the length bound. -/
theorem top_committers_spec_witness :
    (topCommitters exampleCommitRows).length =
        min 5 (exampleCommitRows.filterMap CRow.author).dedup.length
    ∧ topCommitters exampleCommitRows =
        [("Alice", 3), ("Bob", 3), ("Carol", 1)] :=
  ⟨(top_committers_spec exampleCommitRows).1,
   (top_committers_spec exampleCommitRows).2.2.2⟩

end RepoMiner
